import Mathlib

/-!
# h2csmuggler: the response differ, the per-host worker and the upgrade header

A shallow embedding of `internal/parallel/diff.go`, of the worker body of
`internal/parallel/parallel.go` and of the upgrade request of `client.go`.

Conventions of the embedding:

* a Go pointer that may be nil is an `Option`; dereferencing `none` is the
  panic `Panic.nilDereference`, so every function that dereferences returns
  an `Except Panic _`;
* a Go `map[string]T` that is only read and written by key is a function
  `String → Option T` (the differ cache) or, when it is iterated or logged,
  a list of key/value pairs with pairwise distinct keys (`http.Header`,
  `log.Fields`); iteration follows the list order, one of the orders the Go
  runtime may pick;
* `[]byte` is a `List Nat` of octets, `int` is `Int`;
* the logrus calls of `diffHosts` become the `logged` component of the
  outcome; the global `log.GetLevel()` is the argument `lvl`.
-/

namespace H2CSmuggler

/-! ## Go values -/

/-- The run-time panics the embedded code can raise. -/
inductive Panic where
  | nilDereference
deriving DecidableEq, Repr

/-- A non-nil Go `error` value. Interface comparison (`==`, `!=`) on the
pointer-typed errors this program produces is identity of the pointer:
`ident` is that identity, `msg` the text of `Error()`. -/
structure GoError where
  ident : Nat
  msg : String
deriving DecidableEq, Repr

/-- Dereference of a Go pointer. -/
def deref {α : Type} : Option α → Except Panic α
  | some a => .ok a
  | none => .error .nilDereference

/-- Assignment `m[k] = v` on the entry list of a map: the value of an existing
key is replaced in place, a new key is added at the end. -/
def assocSet {β : Type} : List (String × β) → String → β → List (String × β)
  | [], k, v => [(k, v)]
  | (a, b) :: l, k, v => if a = k then (k, v) :: l else (a, b) :: assocSet l k v

/-! ## net/textproto and net/http: headers -/

/-- The octets `textproto` accepts in a header field name (RFC 7230 token
characters), as in `validHeaderFieldByte`. -/
def validHeaderFieldByte (c : Char) : Bool :=
  c.isAlphanum || "!#$%&*+-.^_|~".toList.contains c || c.toNat = 39 || c.toNat = 96

/-- The rewriting loop of `canonicalMIMEHeaderKey`: upper case for the first
letter and for every letter after a dash, lower case elsewhere. -/
def canonicalLoop : Bool → List Char → List Char
  | _, [] => []
  | upper, c :: cs =>
    let c1 := if upper && c.isLower then c.toUpper
              else if !upper && c.isUpper then c.toLower else c
    c1 :: canonicalLoop (c1.toNat == 45) cs

/-- Go `textproto.CanonicalMIMEHeaderKey`: a key holding an octet that is not
a header field octet is returned unchanged, any other key is put in the
canonical capitalisation. -/
def CanonicalMIMEHeaderKey (s : String) : String :=
  if s.toList.all validHeaderFieldByte then String.mk (canonicalLoop true s.toList) else s

/-- Go `http.Header`, a `map[string][]string`: the list of its entries. -/
structure HttpHeader where
  entries : List (String × List String)
deriving DecidableEq, Repr

namespace HttpHeader

/-- The empty header map `http.Header{}` (a nil header behaves the same for
every read the differ performs). -/
def empty : HttpHeader := ⟨[]⟩

/-- The map invariant: no key occurs twice. -/
def WellFormed (h : HttpHeader) : Prop := (h.entries.map Prod.fst).Nodup

instance (h : HttpHeader) : Decidable h.WellFormed := by
  unfold WellFormed; infer_instance

/-- Go `len(h)`: the number of keys. -/
def len (h : HttpHeader) : Nat := h.entries.length

/-- Go `h[k]` with the comma-ok flag dropped: `none` when the key is absent. -/
def index (h : HttpHeader) (k : String) : Option (List String) := h.entries.lookup k

/-- Go `h.Values(k)`: the values stored under the canonical form of `k`, nil
when there are none. -/
def Values (h : HttpHeader) (k : String) : List String :=
  (h.index (CanonicalMIMEHeaderKey k)).getD []

/-- Go `h[k] = vs`. -/
def store (h : HttpHeader) (k : String) (vs : List String) : HttpHeader :=
  ⟨assocSet h.entries k vs⟩

/-- Go `h.Add(k, v)`: append `v` to the values under the canonical form of `k`. -/
def Add (h : HttpHeader) (k v : String) : HttpHeader :=
  let key := CanonicalMIMEHeaderKey k
  h.store key ((h.index key).getD [] ++ [v])

/-- The loop `for _, vv := range vs { h.Add(k, vv) }`. -/
def addAll (h : HttpHeader) (k : String) (vs : List String) : HttpHeader :=
  vs.foldl (fun acc vv => acc.Add k vv) h

end HttpHeader

/-- The part of `http.Request` the differ reads. -/
structure HttpRequest where
  Host : String
deriving DecidableEq, Repr

/-- The part of `http.Response` the differ reads; `Request` is a pointer. -/
structure HttpResponse where
  StatusCode : Int
  Header : HttpHeader
  Request : Option HttpRequest
deriving DecidableEq, Repr

/-! ## logrus -/

/-- The logrus levels, in increasing verbosity. -/
inductive Level where
  | PanicLevel | FatalLevel | ErrorLevel | WarnLevel | InfoLevel | DebugLevel | TraceLevel
deriving DecidableEq, Repr

/-- The numeric value of a logrus level. -/
def Level.toNat : Level → Nat
  | .PanicLevel => 0 | .FatalLevel => 1 | .ErrorLevel => 2 | .WarnLevel => 3
  | .InfoLevel => 4 | .DebugLevel => 5 | .TraceLevel => 6

/-- Logrus `IsLevelEnabled`: an entry of level `l` is written when the
configured level `lvl` is at least `l`. -/
def Level.enabled (lvl l : Level) : Bool := decide (l.toNat ≤ lvl.toNat)

/-- The values the differ stores in a `log.Fields` map. -/
inductive FieldValue where
  | int (n : Int)
  | str (s : String)
  | bytes (b : List Nat)
  | err (e : GoError)
  | header (h : HttpHeader)
deriving DecidableEq, Repr

/-- Logrus `log.Fields`, a `map[string]interface{}`: the list of its entries. -/
structure Fields where
  entries : List (String × FieldValue)
deriving DecidableEq, Repr

namespace Fields

/-- The empty map `log.Fields{}`. -/
def empty : Fields := ⟨[]⟩

/-- Go `f[k]`: `none` when the key is absent. -/
def get (f : Fields) (k : String) : Option FieldValue := f.entries.lookup k

/-- Go `f[k] = v`. -/
def set (f : Fields) (k : String) (v : FieldValue) : Fields :=
  ⟨assocSet f.entries k v⟩

/-- Logrus `WithFields(f).WithFields(g)`: the entries of `f`, then those of
`g`, a key of `g` replacing the same key of `f`. -/
def merge (f g : Fields) : Fields := g.entries.foldl (fun acc p => acc.set p.1 p.2) f

end Fields

/-- One entry written by logrus. -/
structure LogEntry where
  level : Level
  fields : Fields
  msg : String
deriving DecidableEq, Repr

/-! ## internal/parallel/diff.go -/

/-- Go `res`, the outcome of one request attempt (capitalised here, since the
Go struct shares its name with its own field `res`). -/
structure Res where
  target : String
  res : Option HttpResponse
  body : List Nat
  err : Option GoError
deriving DecidableEq, Repr

/-- Go `(*res).IsNil`. -/
def Res.IsNil (r : Res) : Bool := r.err.isNone && r.res.isNone

/-- Go `Diff`: the two slots of a cache entry, each a `*res`. -/
structure Diff where
  HTTP2 : Option Res
  H2C : Option Res
deriving DecidableEq, Repr

/-- Go `ResponseDiff`. -/
structure ResponseDiff where
  cache : String → Option Diff
  DeleteOnShow : Bool

/-- Go `NewDiffer`. -/
def NewDiffer (DeleteOnShow : Bool) : ResponseDiff :=
  { cache := fun _ => none, DeleteOnShow := DeleteOnShow }

/-- What one run of `diffHosts` computes: the local variables `diff`, `fields`
and `debugFields` at the end of the comparison and the `results differ` entry
it wrote, if any. -/
structure Outcome where
  diff : Bool
  fields : Fields
  debugFields : Fields
  logged : Option LogEntry
deriving DecidableEq, Repr

/-- The three header maps `diffHosts` builds when the key counts differ:
`(sharedHeaders, http2Headers, h2cHeaders)`. The first loop ranges over the
normal header, the second over the keys of the h2c header not seen by the
first. -/
def headerPartition (n h : HttpHeader) : HttpHeader × HttpHeader × HttpHeader :=
  let first := n.entries.foldl
    (fun (acc : HttpHeader × HttpHeader × HttpHeader) (kv : String × List String) =>
      let h2cv := h.Values kv.1
      if kv.2.length ≠ h2cv.length then
        (acc.1, acc.2.1.addAll kv.1 kv.2, acc.2.2.addAll kv.1 h2cv)
      else
        (acc.1.addAll kv.1 kv.2, acc.2.1, acc.2.2))
    (HttpHeader.empty, HttpHeader.empty, HttpHeader.empty)
  let seen := n.entries.map Prod.fst
  h.entries.foldl
    (fun (acc : HttpHeader × HttpHeader × HttpHeader) (kv : String × List String) =>
      if kv.1 ∈ seen then acc else (acc.1, acc.2.1, acc.2.2.addAll kv.1 kv.2))
    first

/-- The `results differ` entry of `diffHosts`: at `InfoLevel` an info entry
with the primary fields, at any other level a debug entry with the primary and
the debug fields, which logrus writes only when the debug level is enabled. -/
def resultsDiffer (lvl : Level) (fields debugFields : Fields) : Option LogEntry :=
  match lvl with
  | .InfoLevel => some ⟨.InfoLevel, fields, "results differ"⟩
  | _ =>
    if lvl.enabled .DebugLevel then
      some ⟨.DebugLevel, fields.merge debugFields, "results differ"⟩
    else none

/-- Lines 97 to 111 of `diffHosts`, the comparison of the two `err` values.
Returns the local variables `diff` and `fields`. -/
def errorBlock (n h : Res) : Except Panic (Bool × Fields) := do
  let mut diff := false
  let mut fields := Fields.empty
  if n.err ≠ h.err then
    diff := true
    if let some e := h.err then
      let nres ← deref n.res
      fields := fields.set "normal-status-code" (.int nres.StatusCode)
      fields := fields.set "normal-response-body-len" (.int n.body.length)
      let req ← deref nres.Request
      fields := fields.set "host" (.str req.Host)
      fields := fields.set "h2c-error" (.err e)
    if let some e := n.err then
      let hres ← deref h.res
      fields := fields.set "h2c-status-code" (.int hres.StatusCode)
      fields := fields.set "h2c-response-body-len" (.int h.body.length)
      let req ← deref hres.Request
      fields := fields.set "host" (.str req.Host)
      fields := fields.set "normal-error" (.err e)
  return (diff, fields)

/-- Lines 112 to 168 of `diffHosts`, the comparison of the two responses when
both are present. Takes the local variables `diff` and `fields` and returns
`diff`, `fields` and `debugFields`. -/
def responseBlock (n h : Res) (diff0 : Bool) (fields0 : Fields) :
    Except Panic (Bool × Fields × Fields) := do
  let mut diff := diff0
  let mut fields := fields0
  let mut debugFields := Fields.empty
  if let (some nres, some hres) := (n.res, h.res) then
    let req ← deref hres.Request
    fields := fields.set "host" (.str req.Host)
    if nres.StatusCode ≠ hres.StatusCode then
      diff := true
      fields := fields.set "normal-status-code" (.int nres.StatusCode)
      fields := fields.set "h2c-status-code" (.int hres.StatusCode)
    if nres.Header.len ≠ hres.Header.len then
      diff := true
      let parts := headerPartition nres.Header hres.Header
      fields := fields.set "normal-headers" (.header parts.2.1)
      fields := fields.set "same-headers" (.header parts.1)
      fields := fields.set "h2c-headers" (.header parts.2.2)
    if n.body.length ≠ h.body.length then
      diff := true
      fields := fields.set "normal-response-body-len" (.int n.body.length)
      fields := fields.set "h2c-response-body-len" (.int h.body.length)
    if n.body ≠ h.body then
      debugFields := debugFields.set "normal-body" (.bytes n.body)
      debugFields := debugFields.set "h2c-body" (.bytes h.body)
  return (diff, fields, debugFields)

/-- Go `(*ResponseDiff).diffHosts`: the two comparison blocks, then the
`results differ` entry when `diff` is set, then the eviction of the entry when
`DeleteOnShow` is set. The two `log.Tracef` lines that open the function are
not part of the outcome. -/
def diffHosts (lvl : Level) (r : ResponseDiff) (d : Diff) :
    Except Panic (ResponseDiff × Outcome) := do
  let n ← deref d.HTTP2
  let h ← deref d.H2C
  let (diff, fields) ← errorBlock n h
  let (diff, fields, debugFields) ← responseBlock n h diff fields
  let logged := if diff then resultsDiffer lvl fields debugFields else none
  let r1 : ResponseDiff :=
    if r.DeleteOnShow then { r with cache := Function.update r.cache n.target none } else r
  return (r1, { diff := diff, fields := fields, debugFields := debugFields, logged := logged })

/-- Go `(*ResponseDiff).diffHTTP2`: the entry of the target, created when
absent, with its normal slot overwritten; the entry lives in the cache. -/
def diffHTTP2 (r : ResponseDiff) (http2res : Res) : ResponseDiff × Diff :=
  let diff : Diff := (r.cache http2res.target).getD { HTTP2 := none, H2C := none }
  let diff := { diff with HTTP2 := some http2res }
  ({ r with cache := Function.update r.cache http2res.target (some diff) }, diff)

/-- Go `(*ResponseDiff).diffH2C`: the entry of the target, created when
absent, with its h2c slot overwritten; the entry lives in the cache. -/
def diffH2C (r : ResponseDiff) (h2cres : Res) : ResponseDiff × Diff :=
  let diff : Diff := (r.cache h2cres.target).getD { HTTP2 := none, H2C := none }
  let diff := { diff with H2C := some h2cres }
  ({ r with cache := Function.update r.cache h2cres.target (some diff) }, diff)

/-- Go `(*ResponseDiff).ShowDiffH2C`: `none` when the entry is not complete
and no comparison is made. -/
def ShowDiffH2C (lvl : Level) (r : ResponseDiff) (http2res : Res) :
    Except Panic (ResponseDiff × Option Outcome) :=
  let (r1, d) := diffH2C r http2res
  if d.H2C.isNone || d.HTTP2.isNone then .ok (r1, none)
  else (diffHosts lvl r1 d).map (fun p => (p.1, some p.2))

/-- Go `(*ResponseDiff).ShowDiffHTTP2`: `none` when the entry is not complete
and no comparison is made. -/
def ShowDiffHTTP2 (lvl : Level) (r : ResponseDiff) (http2res : Res) :
    Except Panic (ResponseDiff × Option Outcome) :=
  let (r1, d) := diffHTTP2 r http2res
  if d.H2C.isNone || d.HTTP2.isNone then .ok (r1, none)
  else (diffHosts lvl r1 d).map (fun p => (p.1, some p.2))

/-! ## The caller of the differ -/

/-- The two passes whose records the differ pairs. -/
inductive Pass where
  | normal
  | h2c
deriving DecidableEq, Repr

/-- One recording, by the entry point of the pass: `ShowDiffHTTP2` for a record
of the normal pass, `ShowDiffH2C` for a record of the h2c pass. -/
def record (lvl : Level) (r : ResponseDiff) (p : Pass) (x : Res) :
    Except Panic (ResponseDiff × Option Outcome) :=
  match p with
  | .normal => ShowDiffHTTP2 lvl r x
  | .h2c => ShowDiffH2C lvl r x

/-- A sequence of recordings made one after the other on the same differ: the
final differ and the comparisons performed, in order. -/
def recordAll (lvl : Level) (r : ResponseDiff) :
    List (Pass × Res) → Except Panic (ResponseDiff × List Outcome)
  | [] => .ok (r, [])
  | (p, x) :: rest =>
    match record lvl r p x with
    | .error e => .error e
    | .ok (r1, o) =>
      match recordAll lvl r1 rest with
      | .error e => .error e
      | .ok (r2, os) => .ok (r2, o.toList ++ os)

/-! ## internal/parallel/parallel.go: the worker of `GetPathsOnHost` -/

/-- How `conn.Do(req)` followed by `ioutil.ReadAll(res.Body)` ends. -/
inductive Exchange where
  | doFailed (e : GoError)
  | readFailed (e : GoError)
  | done (resp : HttpResponse) (body : List Nat)
deriving DecidableEq, Repr

/-- The functions of other packages that `doConn` calls, as parameters:
`newRequest t` is the error of `http.NewRequest("GET", t, nil)`, if any;
`exchange k t` is how the `k`-th `conn.Do` of the connection, made for target
`t`, and the read of its body end; `wrap` is `errors.Wrap`. -/
structure Network where
  newRequest : String → Option GoError
  exchange : Nat → String → Exchange
  wrap : GoError → String → GoError

/-- What a worker does that the rest of the program or the peer can observe:
a call of `doConn`, a call of `conn.Do` inside it, a record sent on `out`. -/
inductive Event where
  | doConnCall (target : String)
  | connDo (target : String)
  | send (r : Res)
deriving DecidableEq, Repr

/-- Go `doConn`, as the `k`-th use of the connection: the named results `r` and
`err`, and whether `conn.Do` was reached. The request mutations only change
the request handed to `conn.Do`, which the parameter `exchange` stands for. -/
def doConn (net : Network) (k : Nat) (target : String) : Res × Option GoError × Bool :=
  let r : Res := { target := target, res := none, body := [], err := none }
  match net.newRequest target with
  | some e => (r, some (net.wrap e "request creation"), false)
  | none =>
    match net.exchange k target with
    | .doFailed e => (r, some (net.wrap e "connection do"), true)
    | .readFailed e => (r, some (net.wrap e "body read"), true)
    | .done resp body => ({ r with body := body, res := some resp }, none, true)

/-- The statement pair `r, err := doConn(conn, t, ...)`,
`if err != nil { r.err = err }` of the worker: the events of the call, the
record, and the number of `conn.Do` calls made on the connection so far. -/
def attempt (net : Network) (k : Nat) (t : String) : List Event × Res × Nat :=
  let (r, err, reached) := doConn net k t
  let r1 : Res := match err with
    | some e => { r with err := some e }
    | none => r
  (Event.doConnCall t :: (if reached then [Event.connDo t] else []), r1,
    if reached then k + 1 else k)

/-- The loop `for t := range in` of the worker goroutine of `GetPathsOnHost`,
on the work items the worker receives, in the order it receives them. -/
def workerLoop (net : Network) (connErr : Option GoError) : Nat → List String → List Event
  | _, [] => []
  | k, t :: ts =>
    match connErr with
    | some e =>
      Event.send { target := t, res := none, body := [], err := some e }
        :: workerLoop net connErr k ts
    | none =>
      let (evs, r, k1) := attempt net k t
      evs ++ Event.send r :: workerLoop net connErr k1 ts

/-- The worker goroutine of `GetPathsOnHost`: `connErr` is the error returned
by `h2csmuggler.NewConn(base, ...)`, `items` the work items the worker
receives from `in` until the channel is closed. The result of the first
request, for `base`, is not sent. -/
def worker (net : Network) (connErr : Option GoError) (base : String)
    (items : List String) : List Event :=
  let (evs, _, k) := attempt net 0 base
  evs ++ workerLoop net connErr k items

/-- The target of the record an event sends on `out`, if the event is a send. -/
def Event.sentTarget : Event → Option String
  | .send r => some r.target
  | _ => none

/-- A network on which every `conn.Do` fails, as on a connection that was
never established. -/
def deadNetwork : Network :=
  { newRequest := fun _ => none
    exchange := fun _ _ => .doFailed ⟨1, "connection failed"⟩
    wrap := fun e msg => ⟨e.ident + 1, msg ++ ": " ++ e.msg⟩ }

/-! ## client.go: the upgrade request -/

/-- The value of the `HTTP2-Settings` header that `Request` adds to the
upgrade request. -/
def HTTP2Settings : String := "AAMAAABkAARAAAAAAAIAAAAA"

/-- Modelled from the spec: the decoder of the base64url alphabet is no part
of the sources; this is the value of one character of the URL-safe alphabet
of RFC 4648, `A-Z`, `a-z`, `0-9`, `-`, `_`. -/
def base64urlValue (c : Char) : Option Nat :=
  if c.isUpper then some (c.toNat - 65)
  else if c.isLower then some (c.toNat - 97 + 26)
  else if c.isDigit then some (c.toNat - 48 + 52)
  else if c.toNat = 45 then some 62
  else if c.toNat = 95 then some 63
  else none

/-- Modelled from the spec: the decoder of unpadded base64 is no part of the
sources; four sextets give three octets, a final group of three or two
sextets gives two or one octets with its unused low bits zero, and a final
group of one sextet is not valid. -/
def base64Octets : List Nat → Option (List Nat)
  | [] => some []
  | [_] => none
  | [a, b] => if b % 16 = 0 then some [a * 4 + b / 16] else none
  | [a, b, c] =>
    if c % 4 = 0 then some [a * 4 + b / 16, (b % 16) * 16 + c / 4] else none
  | a :: b :: c :: d :: rest =>
    (base64Octets rest).map
      (fun tail => [a * 4 + b / 16, (b % 16) * 16 + c / 4, (c % 4) * 64 + d] ++ tail)

/-- Modelled from the spec: the decoding "base64url, unpadded" of a header
value, which the sources do not contain: every character is one of the
URL-safe alphabet (so no padding character) and the sextets decode. -/
def base64urlDecode (s : String) : Option (List Nat) :=
  (s.toList.mapM base64urlValue).bind base64Octets

/-- Modelled from the spec: the SETTINGS frame payload format, whose parser is
in the `http2` package, no part of the sources: a sequence of entries of six
octets, a 16-bit identifier then a 32-bit value, both big-endian. -/
def parseSettings : List Nat → Option (List (Nat × Nat))
  | [] => some []
  | i1 :: i0 :: v3 :: v2 :: v1 :: v0 :: rest =>
    (parseSettings rest).map
      (fun tail => (i1 * 256 + i0, ((v3 * 256 + v2) * 256 + v1) * 256 + v0) :: tail)
  | _ => none

/-- Modelled from the spec: the range HTTP/2 allows for the value of a setting,
whose check is in the `http2` package, no part of the sources: `ENABLE_PUSH`
(2) is 0 or 1, `INITIAL_WINDOW_SIZE` (4) is at most `2^31 - 1`,
`MAX_FRAME_SIZE` (5) is between `2^14` and `2^24 - 1`, any other identifier
takes any 32-bit value. -/
def settingValid (s : Nat × Nat) : Bool :=
  match s.1 with
  | 2 => decide (s.2 ≤ 1)
  | 4 => decide (s.2 ≤ 2 ^ 31 - 1)
  | 5 => decide (2 ^ 14 ≤ s.2 ∧ s.2 ≤ 2 ^ 24 - 1)
  | _ => decide (s.2 < 2 ^ 32)

/-! ## client.go: the dial of `Request` -/

/-- The fields of the parsed `url.URL` that `Request` reads. -/
structure URL where
  Scheme : String
  Host : String
deriving DecidableEq, Repr

/-- Go `validOptionalPort` of `net/url`: the empty string, or a colon followed
by decimal digits only. -/
def validOptionalPort (port : List Char) : Bool :=
  match port with
  | [] => true
  | c :: rest => c.toNat == 58 && rest.all Char.isDigit

/-- The cut of `host` at `strings.LastIndexByte(host, ':')`: the text before
the last colon and the text from that colon on, `none` when there is no colon. -/
def splitLastColon (host : List Char) : Option (List Char × List Char) :=
  let afterColon := (host.reverse.takeWhile (fun c => c.toNat != 58)).length
  if afterColon = host.length then none
  else some (host.take (host.length - afterColon - 1), host.drop (host.length - afterColon - 1))

/-- Go `splitHostPort` of `net/url`: the port is what follows the last colon
when that is a valid optional port, and the brackets of an IPv6 literal are
taken off the host. -/
def splitHostPort (hostPort : String) : String × String :=
  let cut : List Char × List Char :=
    match splitLastColon hostPort.toList with
    | some (before, fromColon) =>
      if validOptionalPort fromColon then (before, fromColon.drop 1) else (hostPort.toList, [])
    | none => (hostPort.toList, [])
  let host :=
    if cut.1.head?.map Char.toNat = some 91 && cut.1.getLast?.map Char.toNat = some 93 then
      (cut.1.drop 1).dropLast
    else cut.1
  (String.mk host, String.mk cut.2)

/-- Go `(*url.URL).Port`. -/
def URL.Port (u : URL) : String := (splitHostPort u.Host).2

/-- The dial that `Request` makes: `tls` tells `tls.DialWithDialer` from
`dialer.Dial`, `address` is the address argument of the call. -/
structure Dial where
  tls : Bool
  address : String
deriving DecidableEq, Repr

/-- Lines 49 to 68 of `Request`: the dial made for the parsed target URL. Under
the scheme `https` the address is `parsed.Host`, with `:443` appended when
`parsed.Port()` is empty; under any other scheme it is `parsed.Host`. -/
def requestDial (parsed : URL) : Dial :=
  if parsed.Scheme = "https" then
    let hostport := if parsed.Port = "" then parsed.Host ++ ":" ++ "443" else parsed.Host
    { tls := true, address := hostport }
  else
    { tls := false, address := parsed.Host }

/-! ## Sample records -/

/-- The request of the sample responses. -/
def sampleRequest : HttpRequest := ⟨"victim.example"⟩

/-- A direct request for `/admin` that the front end blocks. -/
def adminNormal : Res :=
  ⟨"https://victim.example/admin",
    some ⟨403, ⟨[("Content-Type", ["text/html"])]⟩, some sampleRequest⟩, [60, 104, 62], none⟩

/-- The smuggled request for `/admin`, answered by the backend. -/
def adminH2C : Res :=
  ⟨"https://victim.example/admin",
    some ⟨200, ⟨[("Content-Type", ["text/html"])]⟩, some sampleRequest⟩, [60, 112, 62], none⟩

/-- A repeated direct request for `/admin`, now answered like the smuggled one. -/
def adminNormalRetry : Res :=
  ⟨"https://victim.example/admin",
    some ⟨200, ⟨[("Content-Type", ["text/html"])]⟩, some sampleRequest⟩, [60, 112, 62], none⟩

/-- A normal response with three header keys. -/
def cachedNormal : Res :=
  ⟨"https://victim.example/",
    some ⟨200, ⟨[("Content-Type", ["text/html"]), ("X-Cache", ["HIT"]),
      ("Set-Cookie", ["a=1", "b=2"])]⟩, some sampleRequest⟩, [111, 107], none⟩

/-- An h2c response with three header keys: `X-Backend` in place of `X-Cache`
and one `Set-Cookie` value in place of two. -/
def cachedH2C : Res :=
  ⟨"https://victim.example/",
    some ⟨200, ⟨[("Content-Type", ["text/html"]), ("X-Backend", ["b1"]),
      ("Set-Cookie", ["a=1"])]⟩, some sampleRequest⟩, [111, 107], none⟩

/-- A normal response for a page that carries a nonce. -/
def pageNormal : HttpResponse :=
  ⟨200, ⟨[("Content-Type", ["text/html"]), ("Set-Cookie", ["a=1", "b=2"])]⟩, some sampleRequest⟩

/-- The h2c response for the same page: the same header keys and value counts
in another order and with other values. -/
def pageH2C : HttpResponse :=
  ⟨200, ⟨[("Set-Cookie", ["b=2", "a=1"]), ("Content-Type", ["text/plain"])]⟩, some sampleRequest⟩

/-- An h2c response with one more header key than `pageNormal`. -/
def pageH2CExtra : HttpResponse :=
  ⟨200, ⟨[("Content-Type", ["text/html"]), ("Set-Cookie", ["a=1", "b=2"]),
    ("X-Backend", ["b1"])]⟩, some sampleRequest⟩

/-- The error of a normal pass that could not connect. -/
def dialError : GoError := ⟨0, "dial tcp: connection refused"⟩

/-- The error of an h2c pass whose upgrade request failed. -/
def upgradeError : GoError := ⟨1, "connection do: unexpected EOF"⟩

/-- The record of a normal pass that failed for `/admin`. -/
def adminNormalFailed : Res :=
  ⟨"https://victim.example/admin", none, [], some dialError⟩

/-- The record of an h2c pass that failed for `/admin`, with an error of its own. -/
def adminH2CFailed : Res :=
  ⟨"https://victim.example/admin", none, [], some upgradeError⟩

/-- The parsed form of the target `http://example.com/`. -/
def plainExample : URL := ⟨"http", "example.com"⟩

/-- The parsed form of the target `https://example.com/`. -/
def secureExample : URL := ⟨"https", "example.com"⟩

/-- The parsed form of the target `http://example.com:8080/`. -/
def plainExamplePort : URL := ⟨"http", "example.com:8080"⟩

/-! ## Lemmas on maps -/

theorem lookup_assocSet {β : Type} (l : List (String × β)) (k k1 : String) (v : β) :
    List.lookup k1 (assocSet l k v) = if k1 = k then some v else List.lookup k1 l := by
  induction l with
  | nil =>
    by_cases h1 : k1 = k
    · subst h1; simp [assocSet, List.lookup]
    · have : (k1 == k) = false := by simpa using h1
      simp [assocSet, List.lookup, this, h1]
  | cons p l ih =>
    obtain ⟨a, b⟩ := p
    by_cases hak : a = k
    · subst hak
      by_cases h1 : k1 = a
      · subst h1; simp [assocSet, List.lookup]
      · have : (k1 == a) = false := by simpa using h1
        simp [assocSet, List.lookup, this, h1]
    · by_cases h2 : k1 = a
      · subst h2
        simp [assocSet, List.lookup, hak]
      · have : (k1 == a) = false := by simpa using h2
        simp [assocSet, List.lookup, this, hak, ih]

theorem Fields.get_set (f : Fields) (k k1 : String) (v : FieldValue) :
    (f.set k v).get k1 = if k1 = k then some v else f.get k1 := by
  simp [Fields.set, Fields.get, lookup_assocSet]

theorem Fields.get_empty (k : String) : Fields.empty.get k = none := rfl

theorem lookup_isSome_iff_mem_keys {β : Type} (l : List (String × β)) (k : String) :
    (List.lookup k l).isSome = true ↔ k ∈ l.map Prod.fst := by
  induction l with
  | nil => simp
  | cons p l ih =>
    obtain ⟨a, b⟩ := p
    by_cases h2 : k = a
    · subst h2; simp [List.lookup]
    · have : (k == a) = false := by simpa using h2
      simp only [List.lookup, this, List.map_cons, List.mem_cons, h2, false_or]
      exact ih

theorem HttpHeader.len_eq_of_same_counts (a b : HttpHeader) (ha : a.WellFormed)
    (hb : b.WellFormed)
    (hk : ∀ k, (a.index k).map List.length = (b.index k).map List.length) :
    a.len = b.len := by
  have hmem : ∀ k, k ∈ a.entries.map Prod.fst ↔ k ∈ b.entries.map Prod.fst := by
    intro k
    rw [← lookup_isSome_iff_mem_keys, ← lookup_isSome_iff_mem_keys]
    have := hk k
    unfold HttpHeader.index at this
    cases h1 : List.lookup k a.entries <;> cases h2 : List.lookup k b.entries <;>
      simp [h1, h2] at this ⊢
  have hperm := (List.perm_ext_iff_of_nodup ha hb).2 hmem
  have := hperm.length_eq
  simpa [HttpHeader.len] using this

/-! ## Lemmas on the differ -/

theorem diffHosts_factor (lvl : Level) (n h : Res) :
    ∃ c : Except Panic Outcome, ∀ r : ResponseDiff,
      diffHosts lvl r ⟨some n, some h⟩
        = c.map (fun o => (if r.DeleteOnShow then
              { r with cache := Function.update r.cache n.target none } else r, o)) := by
  refine ⟨(diffHosts lvl (NewDiffer false) ⟨some n, some h⟩).map Prod.snd, fun r => ?_⟩
  simp only [diffHosts, deref, bind, Except.bind, pure, Except.pure, Except.map, NewDiffer]
  rcases errorBlock n h with e | a
  · rfl
  · dsimp only
    rcases responseBlock n h a.1 a.2 with e | b
    · rfl
    · simp

theorem ShowDiffHTTP2_eq (lvl : Level) (r : ResponseDiff) (n : Res) :
    ShowDiffHTTP2 lvl r n =
      match (r.cache n.target).bind Diff.H2C with
      | none => .ok (⟨Function.update r.cache n.target (some ⟨some n, none⟩), r.DeleteOnShow⟩, none)
      | some h =>
        (diffHosts lvl ⟨Function.update r.cache n.target (some ⟨some n, some h⟩), r.DeleteOnShow⟩
          ⟨some n, some h⟩).map (fun p => (p.1, some p.2)) := by
  unfold ShowDiffHTTP2 diffHTTP2
  rcases hc : r.cache n.target with _ | ⟨dn, _ | dh⟩ <;> simp

theorem ShowDiffH2C_eq (lvl : Level) (r : ResponseDiff) (h : Res) :
    ShowDiffH2C lvl r h =
      match (r.cache h.target).bind Diff.HTTP2 with
      | none => .ok (⟨Function.update r.cache h.target (some ⟨none, some h⟩), r.DeleteOnShow⟩, none)
      | some n =>
        (diffHosts lvl ⟨Function.update r.cache h.target (some ⟨some n, some h⟩), r.DeleteOnShow⟩
          ⟨some n, some h⟩).map (fun p => (p.1, some p.2)) := by
  unfold ShowDiffH2C diffH2C
  rcases hc : r.cache h.target with _ | ⟨_ | dn, dh⟩ <;> simp


/-! ## The comparison of a complete entry -/

/-- C1: on a complete entry whose two records hold a valid response and no
error, differing status codes make `diffHosts` report a mismatch: `diff` is
true, the primary fields hold the normal status under `normal-status-code` and
the h2c status under `h2c-status-code`, and the entry written is the `results
differ` entry of these fields. A valid response is one of a client round trip,
whose `Request` is populated; only the h2c one is read. -/
theorem diffHosts_status_code_mismatch (lvl : Level) (r : ResponseDiff) (tn th : String)
    (nres hres : HttpResponse) (nbody hbody : List Nat) (hreq : HttpRequest)
    (hrequest : hres.Request = some hreq)
    (hstatus : nres.StatusCode ≠ hres.StatusCode) :
    ∃ r1 o,
      diffHosts lvl r ⟨some ⟨tn, some nres, nbody, none⟩, some ⟨th, some hres, hbody, none⟩⟩
          = .ok (r1, o)
        ∧ o.diff = true
        ∧ o.fields.get "normal-status-code" = some (.int nres.StatusCode)
        ∧ o.fields.get "h2c-status-code" = some (.int hres.StatusCode)
        ∧ o.logged = resultsDiffer lvl o.fields o.debugFields := by
  simp [diffHosts, errorBlock, responseBlock, deref, hrequest, hstatus, bind, Except.bind,
    pure, Except.pure]
  split_ifs <;> refine ⟨_, _, rfl, ?_⟩ <;> simp [Fields.get_set, Fields.get_empty]

/-- C1 at the `/admin` scenario: normal 403 against h2c 200 is flagged. -/
theorem diffHosts_status_code_mismatch_witness :
    ∃ r1 o,
      diffHosts .InfoLevel (NewDiffer false) ⟨some adminNormal, some adminH2C⟩ = .ok (r1, o)
        ∧ o.diff = true
        ∧ o.fields.get "normal-status-code" = some (.int 403)
        ∧ o.fields.get "h2c-status-code" = some (.int 200)
        ∧ o.logged = resultsDiffer .InfoLevel o.fields o.debugFields :=
  diffHosts_status_code_mismatch .InfoLevel (NewDiffer false) _ _ _ _ _ _ sampleRequest rfl
    (by decide)

/-- C2: on a complete entry in which one record carries an error and no
response and the other a valid response and no error, `diffHosts` reports a
mismatch whose primary fields hold the status code and the body length of the
side that succeeded and the error of the side that failed. First conjunct: the
normal side failed; second conjunct: the h2c side failed. -/
theorem diffHosts_asymmetric_error (lvl : Level) (r : ResponseDiff) (tn th : String)
    (resp : HttpResponse) (body ebody : List Nat) (e : GoError) (req : HttpRequest)
    (hrequest : resp.Request = some req) :
    (∃ r1 o,
      diffHosts lvl r ⟨some ⟨tn, none, ebody, some e⟩, some ⟨th, some resp, body, none⟩⟩
          = .ok (r1, o)
        ∧ o.diff = true
        ∧ o.fields.get "h2c-status-code" = some (.int resp.StatusCode)
        ∧ o.fields.get "h2c-response-body-len" = some (.int body.length)
        ∧ o.fields.get "normal-error" = some (.err e)
        ∧ o.logged = resultsDiffer lvl o.fields o.debugFields)
    ∧ (∃ r1 o,
      diffHosts lvl r ⟨some ⟨tn, some resp, body, none⟩, some ⟨th, none, ebody, some e⟩⟩
          = .ok (r1, o)
        ∧ o.diff = true
        ∧ o.fields.get "normal-status-code" = some (.int resp.StatusCode)
        ∧ o.fields.get "normal-response-body-len" = some (.int body.length)
        ∧ o.fields.get "h2c-error" = some (.err e)
        ∧ o.logged = resultsDiffer lvl o.fields o.debugFields) := by
  constructor <;>
  · simp [diffHosts, errorBlock, responseBlock, deref, hrequest, bind, Except.bind, pure,
      Except.pure]
    split_ifs <;> refine ⟨_, _, ⟨rfl, rfl⟩, ?_⟩ <;> simp [Fields.get_set, Fields.get_empty]

/-- C2 at the scenario of the specification: the normal pass fails, the h2c
pass returns status 200 with a body of 50 octets. -/
theorem diffHosts_asymmetric_error_witness :
    ∃ r1 o,
      diffHosts .InfoLevel (NewDiffer false)
          ⟨some ⟨"https://victim.example/admin", none, [], some dialError⟩,
           some ⟨"https://victim.example/admin", some pageH2C, List.replicate 50 120, none⟩⟩
          = .ok (r1, o)
        ∧ o.diff = true
        ∧ o.fields.get "h2c-status-code" = some (.int 200)
        ∧ o.fields.get "h2c-response-body-len" = some (.int 50)
        ∧ o.fields.get "normal-error" = some (.err dialError)
        ∧ o.logged = resultsDiffer .InfoLevel o.fields o.debugFields :=
  (diffHosts_asymmetric_error .InfoLevel (NewDiffer false) _ _ pageH2C
    (List.replicate 50 120) [] dialError sampleRequest rfl).1

/-- C3, as stated, fails: the two responses have equal status codes and equal
bodies, `X-Cache` is present on the normal side only and `Set-Cookie` has two
values on the normal side and one on the h2c side, yet both header maps have
three keys and `diffHosts` reports nothing. -/
theorem diffHosts_header_divergence_unflagged :
    cachedNormal.res.map (fun x => x.Header.index "X-Cache") = some (some ["HIT"])
      ∧ cachedH2C.res.map (fun x => x.Header.index "X-Cache") = some none
      ∧ cachedNormal.res.map (fun x => (x.Header.Values "Set-Cookie").length) = some 2
      ∧ cachedH2C.res.map (fun x => (x.Header.Values "Set-Cookie").length) = some 1
      ∧ (diffHosts .DebugLevel (NewDiffer false) ⟨some cachedNormal, some cachedH2C⟩).map Prod.snd
          = .ok { diff := false, fields := ⟨[("host", .str "victim.example")]⟩,
                  debugFields := ⟨[]⟩, logged := none } := by
  refine ⟨rfl, rfl, ?_, ?_, rfl⟩ <;> decide

/-- C3, amended: for two valid responses the headers produce a mismatch exactly
when the two header maps hold a different number of keys. Then `diff` is true
and `normal-headers`, `same-headers` and `h2c-headers` hold the partition of
the keys by value count. When the numbers of keys are equal no header field is
set and `diff` is true only if the status codes or the body lengths differ,
whatever the keys, the value counts, the values and their order. -/
theorem diffHosts_header_key_count (lvl : Level) (r : ResponseDiff) (tn th : String)
    (nres hres : HttpResponse) (nbody hbody : List Nat) (hreq : HttpRequest)
    (hrequest : hres.Request = some hreq) :
    ∃ r1 o,
      diffHosts lvl r ⟨some ⟨tn, some nres, nbody, none⟩, some ⟨th, some hres, hbody, none⟩⟩
          = .ok (r1, o)
        ∧ (nres.Header.len ≠ hres.Header.len →
            o.diff = true
            ∧ o.fields.get "normal-headers"
                = some (.header (headerPartition nres.Header hres.Header).2.1)
            ∧ o.fields.get "same-headers"
                = some (.header (headerPartition nres.Header hres.Header).1)
            ∧ o.fields.get "h2c-headers"
                = some (.header (headerPartition nres.Header hres.Header).2.2))
        ∧ (nres.Header.len = hres.Header.len →
            o.fields.get "normal-headers" = none
            ∧ o.fields.get "same-headers" = none
            ∧ o.fields.get "h2c-headers" = none
            ∧ (o.diff = true ↔
                (nres.StatusCode ≠ hres.StatusCode ∨ nbody.length ≠ hbody.length))) := by
  simp [diffHosts, errorBlock, responseBlock, deref, hrequest, bind, Except.bind, pure,
    Except.pure]
  split_ifs <;>
    first
    | (subst_vars; contradiction)
    | (refine ⟨_, _, rfl, ?_⟩; simp [Fields.get_set, Fields.get_empty, *])

/-- C3, amended, at two inputs: one more key on the h2c side is flagged with
equal status codes and bodies; equal key counts with other values in another
order are not. -/
theorem diffHosts_header_key_count_witness :
    (∃ r1 o,
      diffHosts .InfoLevel (NewDiffer false)
          ⟨some ⟨"https://victim.example/", some pageNormal, [111, 107], none⟩,
           some ⟨"https://victim.example/", some pageH2CExtra, [111, 107], none⟩⟩ = .ok (r1, o)
        ∧ o.diff = true)
    ∧ (∃ r1 o,
      diffHosts .InfoLevel (NewDiffer false)
          ⟨some ⟨"https://victim.example/", some pageNormal, [111, 107], none⟩,
           some ⟨"https://victim.example/", some pageH2C, [111, 107], none⟩⟩ = .ok (r1, o)
        ∧ ¬ o.diff = true) := by
  constructor
  · obtain ⟨r1, o, h, hne, _⟩ :=
      diffHosts_header_key_count .InfoLevel (NewDiffer false) "https://victim.example/"
        "https://victim.example/" pageNormal pageH2CExtra [111, 107] [111, 107] sampleRequest rfl
    exact ⟨r1, o, h, (hne (by decide)).1⟩
  · obtain ⟨r1, o, h, _, heq⟩ :=
      diffHosts_header_key_count .InfoLevel (NewDiffer false) "https://victim.example/"
        "https://victim.example/" pageNormal pageH2C [111, 107] [111, 107] sampleRequest rfl
    exact ⟨r1, o, h, fun hd => by
      have := (heq (by decide)).2.2.2.1 hd
      revert this
      decide⟩

/-- C4: on a complete entry whose two records are free of errors and hold
responses with the same status code, the same header keys with the same number
of values under each key, and the same body, `diffHosts` reports no mismatch:
`diff` stays false and no `results differ` entry is written. -/
theorem diffHosts_silent (lvl : Level) (r : ResponseDiff) (tn th : String)
    (nres hres : HttpResponse) (body : List Nat) (hreq : HttpRequest)
    (hrequest : hres.Request = some hreq)
    (hwn : nres.Header.WellFormed) (hwh : hres.Header.WellFormed)
    (hstatus : nres.StatusCode = hres.StatusCode)
    (hheaders : ∀ k, (nres.Header.index k).map List.length
        = (hres.Header.index k).map List.length) :
    ∃ r1 o,
      diffHosts lvl r ⟨some ⟨tn, some nres, body, none⟩, some ⟨th, some hres, body, none⟩⟩
          = .ok (r1, o)
        ∧ o.diff = false ∧ o.logged = none := by
  have hlen := HttpHeader.len_eq_of_same_counts _ _ hwn hwh hheaders
  simp [diffHosts, errorBlock, responseBlock, deref, hrequest, hstatus, hlen, bind,
    Except.bind, pure, Except.pure]
  split_ifs <;> refine ⟨_, _, ⟨rfl, rfl⟩, ?_⟩ <;> simp

/-- C4 at two responses whose headers agree in keys and value counts and
differ in order and values. -/
theorem diffHosts_silent_witness :
    ∃ r1 o,
      diffHosts .DebugLevel (NewDiffer true)
          ⟨some ⟨"https://victim.example/", some pageNormal, [111, 107], none⟩,
           some ⟨"https://victim.example/", some pageH2C, [111, 107], none⟩⟩ = .ok (r1, o)
        ∧ o.diff = false ∧ o.logged = none :=
  diffHosts_silent .DebugLevel (NewDiffer true) _ _ pageNormal pageH2C _ sampleRequest rfl
    (by decide) (by decide) rfl
    (by
      intro k
      by_cases h1 : k = "Content-Type"
      · subst h1; decide
      · by_cases h2 : k = "Set-Cookie"
        · subst h2; decide
        · have e1 : (k == "Content-Type") = false := by simpa using h1
          have e2 : (k == "Set-Cookie") = false := by simpa using h2
          simp [HttpHeader.index, pageNormal, pageH2C, List.lookup, e1, e2])

/-- C5: for two valid responses, bodies of different length are a reportable
mismatch, with both lengths in the primary fields. Bodies of equal length and
different octets leave the flag and the primary fields as they are for equal
bodies (the flag is decided by the status codes and the header key counts, no
field of the body is set) and are recorded in the debug fields only. -/
theorem diffHosts_body_asymmetry (lvl : Level) (r : ResponseDiff) (tn th : String)
    (nres hres : HttpResponse) (nbody hbody : List Nat) (hreq : HttpRequest)
    (hrequest : hres.Request = some hreq) :
    ∃ r1 o,
      diffHosts lvl r ⟨some ⟨tn, some nres, nbody, none⟩, some ⟨th, some hres, hbody, none⟩⟩
          = .ok (r1, o)
        ∧ (nbody.length ≠ hbody.length →
            o.diff = true
            ∧ o.fields.get "normal-response-body-len" = some (.int nbody.length)
            ∧ o.fields.get "h2c-response-body-len" = some (.int hbody.length)
            ∧ o.logged = resultsDiffer lvl o.fields o.debugFields)
        ∧ (nbody.length = hbody.length → nbody ≠ hbody →
            (o.diff = true ↔
              (nres.StatusCode ≠ hres.StatusCode ∨ nres.Header.len ≠ hres.Header.len))
            ∧ (∃ r2 o2,
                diffHosts lvl r
                    ⟨some ⟨tn, some nres, nbody, none⟩, some ⟨th, some hres, nbody, none⟩⟩
                  = .ok (r2, o2)
                ∧ o.diff = o2.diff ∧ o.fields = o2.fields ∧ o2.debugFields = Fields.empty)
            ∧ o.debugFields
                = (Fields.empty.set "normal-body" (.bytes nbody)).set "h2c-body" (.bytes hbody)
            ∧ o.fields.get "normal-body" = none
            ∧ o.fields.get "h2c-body" = none
            ∧ o.fields.get "normal-response-body-len" = none
            ∧ o.fields.get "h2c-response-body-len" = none) := by
  simp [diffHosts, errorBlock, responseBlock, deref, hrequest, bind, Except.bind, pure,
    Except.pure]
  split_ifs <;>
    first
    | (subst_vars; contradiction)
    | (refine ⟨_, _, rfl, ?_⟩; simp [Fields.get_set, Fields.get_empty, *] <;>
        refine ⟨_, _, ⟨rfl, rfl⟩, ?_⟩ <;> simp [Fields.get_set, Fields.get_empty, *])

/-- C5 at two inputs: a body of three octets against one of two is flagged with
both lengths; two bodies of three octets that differ in one octet are not
flagged, set no primary field of the body and are kept in the debug fields. -/
theorem diffHosts_body_asymmetry_witness :
    (∃ r1 o,
      diffHosts .InfoLevel (NewDiffer false)
          ⟨some ⟨"https://victim.example/", some pageNormal, [111, 107, 33], none⟩,
           some ⟨"https://victim.example/", some pageH2C, [111, 107], none⟩⟩ = .ok (r1, o)
        ∧ o.diff = true
        ∧ o.fields.get "normal-response-body-len" = some (.int 3)
        ∧ o.fields.get "h2c-response-body-len" = some (.int 2))
    ∧ (∃ r1 o,
      diffHosts .InfoLevel (NewDiffer false)
          ⟨some ⟨"https://victim.example/", some pageNormal, [111, 107, 33], none⟩,
           some ⟨"https://victim.example/", some pageH2C, [111, 107, 63], none⟩⟩ = .ok (r1, o)
        ∧ ¬ o.diff = true
        ∧ o.fields.get "normal-response-body-len" = none
        ∧ o.debugFields.get "normal-body" = some (.bytes [111, 107, 33])
        ∧ o.debugFields.get "h2c-body" = some (.bytes [111, 107, 63])) := by
  constructor
  · obtain ⟨r1, o, h, hne, _⟩ :=
      diffHosts_body_asymmetry .InfoLevel (NewDiffer false) "https://victim.example/"
        "https://victim.example/" pageNormal pageH2C [111, 107, 33] [111, 107] sampleRequest rfl
    have h3 := hne (by decide)
    exact ⟨r1, o, h, h3.1, h3.2.1, h3.2.2.1⟩
  · obtain ⟨r1, o, h, _, heq⟩ :=
      diffHosts_body_asymmetry .InfoLevel (NewDiffer false) "https://victim.example/"
        "https://victim.example/" pageNormal pageH2C [111, 107, 33] [111, 107, 63]
        sampleRequest rfl
    have h3 := heq (by decide) (by decide)
    refine ⟨r1, o, h, fun hd => ?_, h3.2.2.2.2.2.1, ?_, ?_⟩
    · have := h3.1.1 hd
      revert this
      decide
    · rw [h3.2.2.1]; decide
    · rw [h3.2.2.1]; decide

/-! ## The cache of the differ -/

/-- C6, as stated, fails: let `r0` be the differ in which a normal record for
`/admin` (status 403) is pending. From `r0`, recording a second normal record
(status 200) and then the h2c record (status 200) makes one comparison, which
finds no mismatch, while recording the h2c record first makes two comparisons,
the first of which reports a mismatch. -/
theorem showDiff_order_dependent :
    ∃ r0,
      ShowDiffHTTP2 .InfoLevel (NewDiffer false) adminNormal = .ok (r0, none)
        ∧ (recordAll .InfoLevel r0 [(.normal, adminNormalRetry), (.h2c, adminH2C)]).map
            (fun p => p.2.map Outcome.diff) = .ok [false]
        ∧ (recordAll .InfoLevel r0 [(.h2c, adminH2C), (.normal, adminNormalRetry)]).map
            (fun p => p.2.map Outcome.diff) = .ok [true, false] :=
  ⟨_, rfl, rfl, rfl⟩

/-- C6, amended: from a cache that holds no entry for the target of the two
records, `ShowDiffHTTP2(n)` followed by `ShowDiffH2C(h)` and `ShowDiffH2C(h)`
followed by `ShowDiffHTTP2(n)` end alike: the same panic, or the same
comparisons with the same outcomes and the same final differ, for either value
of `DeleteOnShow`. -/
theorem showDiff_order_independent (lvl : Level) (r : ResponseDiff) (n h : Res)
    (htarget : n.target = h.target) (hfresh : r.cache n.target = none) :
    recordAll lvl r [(.normal, n), (.h2c, h)] = recordAll lvl r [(.h2c, h), (.normal, n)] := by
  obtain ⟨tn, nres, nb, ne⟩ := n
  obtain ⟨th, hres, hb, he⟩ := h
  simp only at htarget hfresh
  subst htarget
  simp [recordAll, record, ShowDiffHTTP2, ShowDiffH2C, diffHTTP2, diffH2C, hfresh, Except.map]

/-- C6, amended, on a new differ that evicts, for the `/admin` records. -/
theorem showDiff_order_independent_witness :
    recordAll .InfoLevel (NewDiffer true) [(.normal, adminNormal), (.h2c, adminH2C)]
      = recordAll .InfoLevel (NewDiffer true) [(.h2c, adminH2C), (.normal, adminNormal)] :=
  showDiff_order_independent .InfoLevel (NewDiffer true) adminNormal adminH2C rfl rfl

/-- C7, as stated, fails for `DeleteOnShow` true: the h2c record for `/admin`
completes the entry and the comparison reports a mismatch; recorded a second
time, the same record meets an evicted entry and no comparison is made. -/
theorem record_again_after_eviction :
    ∃ r1 r2 r3 o,
      ShowDiffHTTP2 .InfoLevel (NewDiffer true) adminNormal = .ok (r1, none)
        ∧ ShowDiffH2C .InfoLevel r1 adminH2C = .ok (r2, some o)
        ∧ o.diff = true
        ∧ ShowDiffH2C .InfoLevel r2 adminH2C = .ok (r3, none) :=
  ⟨_, _, _, _, rfl, rfl, rfl, rfl⟩

/-- C7, amended: let the cache be one the differ itself produced (the normal
record stored under a key has that key as target), let a record `x` of one
pass be recorded, then a record `y` of the other pass with the same target,
and let this second recording complete the entry with outcome `o`. With
`DeleteOnShow` false, recording `y` again, or `x` again, makes the same
comparison with the same outcome `o` and leaves the differ unchanged. With
`DeleteOnShow` true the entry was evicted, and recording `y` again, or `x`
again, makes no comparison. -/
theorem record_again (lvl : Level) (r ra rb : ResponseDiff) (p q : Pass) (x y : Res)
    (oa : Option Outcome) (o : Outcome) (hpq : p ≠ q) (htarget : x.target = y.target)
    (hkey : ∀ d n, r.cache x.target = some d → d.HTTP2 = some n → n.target = x.target)
    (hfirst : record lvl r p x = .ok (ra, oa))
    (hsecond : record lvl ra q y = .ok (rb, some o)) :
    (r.DeleteOnShow = false →
        record lvl rb q y = .ok (rb, some o) ∧ record lvl rb p x = .ok (rb, some o))
      ∧ (r.DeleteOnShow = true →
        (∃ rc, record lvl rb q y = .ok (rc, none)) ∧ (∃ rc, record lvl rb p x = .ok (rc, none))) := by
  obtain ⟨cache, dos⟩ := r
  obtain ⟨tx, xres, xb, xe⟩ := x
  obtain ⟨ty, yres, yb, ye⟩ := y
  simp only at htarget hkey
  subst htarget
  cases p <;> cases q <;> simp only [ne_eq, not_true_eq_false, reduceCtorEq, not_false_eq_true] at hpq
  · simp only [record, ShowDiffHTTP2_eq, ShowDiffH2C_eq] at hfirst hsecond ⊢
    obtain ⟨c, hc⟩ := diffHosts_factor lvl ⟨tx, xres, xb, xe⟩ ⟨tx, yres, yb, ye⟩
    rcases hcache : cache tx with _ | ⟨dn, _ | h0⟩
    · simp [hcache] at hfirst
      obtain ⟨rfl, rfl⟩ := hfirst
      rcases c with e | oc
      · simp [hc, Except.map] at hsecond
      · simp [hc, Except.map] at hsecond
        obtain ⟨rfl, rfl⟩ := hsecond
        cases dos <;> simp [hc, Except.map]
    · simp [hcache] at hfirst
      obtain ⟨rfl, rfl⟩ := hfirst
      rcases c with e | oc
      · simp [hc, Except.map] at hsecond
      · simp [hc, Except.map] at hsecond
        obtain ⟨rfl, rfl⟩ := hsecond
        cases dos <;> simp [hc, Except.map]
    · obtain ⟨c0, hc0⟩ := diffHosts_factor lvl ⟨tx, xres, xb, xe⟩ h0
      rcases c0 with e | oc0
      · simp [hcache, hc0, Except.map] at hfirst
      · simp [hcache, hc0, Except.map] at hfirst
        obtain ⟨rfl, rfl⟩ := hfirst
        rcases c with e | oc
        · cases dos <;> simp [hc, Except.map] at hsecond
        · cases dos
          · simp [hc, Except.map] at hsecond
            obtain ⟨rfl, rfl⟩ := hsecond
            simp [hc, Except.map]
          · simp [hc, Except.map] at hsecond
  · simp only [record, ShowDiffHTTP2_eq, ShowDiffH2C_eq] at hfirst hsecond ⊢
    obtain ⟨c, hc⟩ := diffHosts_factor lvl ⟨tx, yres, yb, ye⟩ ⟨tx, xres, xb, xe⟩
    rcases hcache : cache tx with _ | ⟨_ | n0, dh⟩
    · simp [hcache] at hfirst
      obtain ⟨rfl, rfl⟩ := hfirst
      rcases c with e | oc
      · simp [hc, Except.map] at hsecond
      · simp [hc, Except.map] at hsecond
        obtain ⟨rfl, rfl⟩ := hsecond
        cases dos <;> simp [hc, Except.map]
    · simp [hcache] at hfirst
      obtain ⟨rfl, rfl⟩ := hfirst
      rcases c with e | oc
      · simp [hc, Except.map] at hsecond
      · simp [hc, Except.map] at hsecond
        obtain ⟨rfl, rfl⟩ := hsecond
        cases dos <;> simp [hc, Except.map]
    · have hn0 : n0.target = tx := hkey _ n0 hcache rfl
      obtain ⟨c0, hc0⟩ := diffHosts_factor lvl n0 ⟨tx, xres, xb, xe⟩
      rw [hn0] at hc0
      rcases c0 with e | oc0
      · simp [hcache, hc0, Except.map] at hfirst
      · simp [hcache, hc0, Except.map] at hfirst
        obtain ⟨rfl, rfl⟩ := hfirst
        rcases c with e | oc
        · cases dos <;> simp [hc, Except.map] at hsecond
        · cases dos
          · simp [hc, Except.map] at hsecond
            obtain ⟨rfl, rfl⟩ := hsecond
            simp [hc, Except.map]
          · simp [hc, Except.map] at hsecond

/-- C7, amended, on a new differ that keeps its entries, for the `/admin`
records: the comparison that completes the entry is made again, with the same
outcome, when either record is recorded again. -/
theorem record_again_witness :
    ∃ ra rb o,
      record .InfoLevel (NewDiffer false) .normal adminNormal = .ok (ra, none)
        ∧ record .InfoLevel ra .h2c adminH2C = .ok (rb, some o)
        ∧ o.diff = true
        ∧ record .InfoLevel rb .h2c adminH2C = .ok (rb, some o)
        ∧ record .InfoLevel rb .normal adminNormal = .ok (rb, some o) := by
  refine ⟨_, _, _, rfl, rfl, rfl, ?_⟩
  exact (record_again .InfoLevel (NewDiffer false) _ _ .normal .h2c adminNormal adminH2C
    none _ (by decide) rfl (fun d n hd => by simp [NewDiffer] at hd) rfl rfl).1 rfl

/-! ## The worker of `GetPathsOnHost` -/

/-- C9, the code at the failing input: `NewConn` for the base returned an
error and the worker receives two work items. The worker sends the two failure
records with that error, yet before them it calls `doConn` for the base, and
`conn.Do` inside it: the first request at line 133 is not guarded by `connErr`,
while the loop body and `conn.Close` are. -/
theorem worker_failed_connection_baseline_request :
    worker deadNetwork (some dialError) "https://victim.example/"
        ["https://victim.example/a", "https://victim.example/b"]
      = [Event.doConnCall "https://victim.example/", Event.connDo "https://victim.example/",
         Event.send ⟨"https://victim.example/a", none, [], some dialError⟩,
         Event.send ⟨"https://victim.example/b", none, [], some dialError⟩] := by
  decide

/-- The trace of a worker whose `NewConn` returned the error `e`, on every
network and every sequence of work items: the loop sends one record per item,
in order, with the item as target, `e` as error and no response, and calls
neither `doConn` nor `conn.Do`; the only calls are those of the first request
for the base, made before the loop whatever `connErr` is. -/
theorem worker_failed_connection (net : Network) (e : GoError) (base : String)
    (items : List String) :
    worker net (some e) base items
      = (Event.doConnCall base
          :: (if net.newRequest base = none then [Event.connDo base] else []))
        ++ items.map
            (fun t => Event.send { target := t, res := none, body := [], err := some e }) := by
  have hloop : ∀ k, workerLoop net (some e) k items
      = items.map
          (fun t => Event.send { target := t, res := none, body := [], err := some e }) := by
    intro k
    induction items generalizing k with
    | nil => rfl
    | cons t ts ih => simp [workerLoop, ih]
  simp only [worker, hloop]
  congr 1
  cases hreq : net.newRequest base with
  | some e1 => simp [attempt, doConn, hreq]
  | none => cases hex : net.exchange 0 base <;> simp [attempt, doConn, hreq, hex]

/-- Whatever `NewConn` returned and whatever the network answers, the records a
worker sends are one per work item, in the order of the items, each with its
item as target. -/
theorem worker_sends_one_record_per_item (net : Network) (connErr : Option GoError)
    (base : String) (items : List String) :
    (worker net connErr base items).filterMap Event.sentTarget = items := by
  have hattempt : ∀ k t, (attempt net k t).1.filterMap Event.sentTarget = []
      ∧ (attempt net k t).2.1.target = t := by
    intro k t
    cases hreq : net.newRequest t with
    | some e1 => simp [attempt, doConn, hreq, Event.sentTarget]
    | none =>
      cases hex : net.exchange k t <;> simp [attempt, doConn, hreq, hex, Event.sentTarget]
  have hloop : ∀ k, (workerLoop net connErr k items).filterMap Event.sentTarget = items := by
    intro k
    induction items generalizing k with
    | nil => rfl
    | cons t ts ih =>
      cases connErr with
      | some e => simp [workerLoop, Event.sentTarget, ih]
      | none =>
        simp [workerLoop, List.filterMap_append, (hattempt k t).1, (hattempt k t).2,
          Event.sentTarget, ih]
  simp [worker, List.filterMap_append, (hattempt 0 base).1, hloop]

/-! ## The upgrade request -/

/-- C10: the value of the `HTTP2-Settings` header is unpadded base64url and
decodes to eighteen octets, three entries of six octets: identifier 3
(`MAX_CONCURRENT_STREAMS`) with value 100, identifier 4 (`INITIAL_WINDOW_SIZE`)
with value `2^30`, identifier 2 (`ENABLE_PUSH`) with value 0, each value in the
range of its identifier. -/
theorem http2_settings_valid :
    base64urlDecode HTTP2Settings
        = some [0, 3, 0, 0, 0, 100, 0, 4, 64, 0, 0, 0, 0, 2, 0, 0, 0, 0]
      ∧ (base64urlDecode HTTP2Settings).map (fun b => b.length % 6) = some 0
      ∧ (base64urlDecode HTTP2Settings).bind parseSettings
          = some [(3, 100), (4, 2 ^ 30), (2, 0)]
      ∧ ((base64urlDecode HTTP2Settings).bind parseSettings).map (fun l => l.all settingValid)
          = some true := by
  decide

/-! ## The dial of `Request` -/

/-- The parts of the dial address that hold on every parsed URL: under `https`
with no port the address is the host with `:443`, with a port it is the host
as it stands, and under any other scheme it is the host as it stands, with or
without a port. -/
theorem requestDial_address (parsed : URL) :
    (parsed.Scheme = "https" → parsed.Port = "" →
        requestDial parsed = ⟨true, parsed.Host ++ ":443"⟩)
      ∧ (parsed.Scheme = "https" → parsed.Port ≠ "" → requestDial parsed = ⟨true, parsed.Host⟩)
      ∧ (parsed.Scheme ≠ "https" → requestDial parsed = ⟨false, parsed.Host⟩) := by
  refine ⟨fun hs hp => ?_, fun hs hp => ?_, fun hs => ?_⟩
  · simp [requestDial, hs, hp, String.append_assoc]
  · simp [requestDial, hs, hp]
  · simp [requestDial, hs]

/-- C11, the code at the failing input: the target `http://example.com/` has
no port, and `Request` dials the address `example.com`, not `example.com:80`;
the same host under `https` is dialed as `example.com:443`, and an explicit
port is kept under `http`. -/
theorem requestDial_plain_http_without_port :
    plainExample.Port = ""
      ∧ requestDial plainExample = ⟨false, "example.com"⟩
      ∧ (requestDial plainExample).address ≠ "example.com:80"
      ∧ requestDial secureExample = ⟨true, "example.com:443"⟩
      ∧ plainExamplePort.Port = "8080"
      ∧ requestDial plainExamplePort = ⟨false, "example.com:8080"⟩ := by
  decide

/-! ## The safety of the comparison -/

/-- When both records of a complete entry carry an error and no response, and
the two errors differ, `diffHosts` panics on the read of `d.HTTP2.res` at line
100. -/
theorem diffHosts_distinct_errors_panic (lvl : Level) (r : ResponseDiff) (tn th : String)
    (nbody hbody : List Nat) (e1 e2 : GoError) (hne : e1 ≠ e2) :
    diffHosts lvl r ⟨some ⟨tn, none, nbody, some e1⟩, some ⟨th, none, hbody, some e2⟩⟩
      = .error .nilDereference := by
  simp [diffHosts, errorBlock, deref, hne, bind, Except.bind]

/-- When both records of a complete entry carry the same error and no
response, `diffHosts` completes and reports nothing. -/
theorem diffHosts_same_error_silent (lvl : Level) (r : ResponseDiff) (tn th : String)
    (nbody hbody : List Nat) (e : GoError) :
    ∃ r1 o,
      diffHosts lvl r ⟨some ⟨tn, none, nbody, some e⟩, some ⟨th, none, hbody, some e⟩⟩
          = .ok (r1, o)
        ∧ o.diff = false ∧ o.logged = none := by
  simp [diffHosts, errorBlock, responseBlock, deref, bind, Except.bind, pure, Except.pure]
  split_ifs <;> exact ⟨_, _, ⟨rfl, rfl⟩, by simp⟩

/-- C12, the code at the failing input: both passes failed for `/admin`, each
with an error of its own, the entry is complete and each record has exactly
one of response and error; `diffHosts` panics with a nil dereference, and so
does the recording that completes the entry. -/
theorem diffHosts_both_errors_nil_dereference :
    adminNormalFailed.err ≠ adminH2CFailed.err
      ∧ adminNormalFailed.res = none ∧ adminH2CFailed.res = none
      ∧ diffHosts .InfoLevel (NewDiffer false) ⟨some adminNormalFailed, some adminH2CFailed⟩
          = .error .nilDereference
      ∧ recordAll .InfoLevel (NewDiffer false)
            [(.normal, adminNormalFailed), (.h2c, adminH2CFailed)]
          = .error .nilDereference := by
  refine ⟨by decide, rfl, rfl, rfl, rfl⟩

end H2CSmuggler
